import Mathlib

/-!
Shallow embedding of `src/example/host_pc.py` (esp_hud host-side sender):
frame header codec, telemetry payload codec, R565 image container,
frame transmitter and scheduler timing, with theorems checking the
natural-language specification against this embedding.

Bytes are modelled as `ℕ` values below 256; Python `bytes` values are
`List ℕ`.  Python `int` is unbounded, modelled as `ℤ`; `struct.pack`
range failures are modelled by `Option` / `Except`.
-/

namespace EspHud

/-- Error taxonomy for the failure points of the host program:
`invalidMagic` is the `ValueError` from `u32_le_from_magic`,
`structError` the `struct.error` raised by an out-of-range pack argument,
`invalidTimeFormat` the `ValueError` paths of `hhmm_to_minutes`,
`payloadTooLarge` the `ValueError` from `TrackImageFetcher.fetch_next`,
`transportWriteError` a failure of `serial.Serial.write`. -/
inductive PErr where
  | invalidMagic
  | structError
  | invalidTimeFormat
  | payloadTooLarge
  | transportWriteError
deriving DecidableEq, Repr

deriving instance DecidableEq for Except

/-- Little-endian bytes of a 16-bit value (`struct.pack "<H"` body). -/
def le16 (n : ℕ) : List ℕ := [n % 256, n / 256 % 256]

/-- Big-endian bytes of a 16-bit value (`struct.pack ">H"` body). -/
def be16 (n : ℕ) : List ℕ := [n / 256 % 256, n % 256]

/-- Little-endian bytes of a 32-bit value (`struct.pack "<I"` body). -/
def le32 (n : ℕ) : List ℕ :=
  [n % 256, n / 256 % 256, n / 65536 % 256, n / 16777216 % 256]

/-- `struct.pack "<B"` after a Python `& 0xFF` mask: always succeeds. -/
def packB (x : ℤ) : ℕ := (x % 256).toNat

/-- `struct.pack "<h"`: signed 16-bit; raises `struct.error` outside
`[-2^15, 2^15)`, otherwise emits the two's-complement bytes. -/
def packh (x : ℤ) : Option (List ℕ) :=
  if -32768 ≤ x ∧ x < 32768 then some (le16 ((x % 65536).toNat)) else none

/-- `struct.pack "<i"`: signed 32-bit with the analogous range check. -/
def packi (x : ℤ) : Option (List ℕ) :=
  if -2147483648 ≤ x ∧ x < 2147483648 then
    some (le32 ((x % 4294967296).toNat))
  else none

/-- `struct.pack "<H"`: unsigned 16-bit; raises outside `[0, 2^16)`. -/
def packHu (x : ℤ) : Option (List ℕ) :=
  if 0 ≤ x ∧ x < 65536 then some (le16 x.toNat) else none

/-- `struct.pack "<I"`: unsigned 32-bit; raises outside `[0, 2^32)`. -/
def packIu (x : ℤ) : Option (List ℕ) :=
  if 0 ≤ x ∧ x < 4294967296 then some (le32 x.toNat) else none

/-- `MAGIC_MSGF = b"MSGF"`. -/
def MAGIC_MSGF : List ℕ := [77, 83, 71, 70]

/-- `MAGIC_IMGF = b"IMGF"`. -/
def MAGIC_IMGF : List ℕ := [73, 77, 71, 70]

/-- `MSG_CMD_SNAPSHOT = 0x00`. -/
def MSG_CMD_SNAPSHOT : ℤ := 0

/-- `MSG_CMD_REBOOT = 0x01`. -/
def MSG_CMD_REBOOT : ℤ := 1

/-- `MAX_PNG_SIZE = 200 * 1024`. -/
def MAX_PNG_SIZE : ℕ := 200 * 1024

/-- `u32_le_from_magic`: requires exactly 4 bytes, then interprets them as
a little-endian unsigned 32-bit word (`struct.unpack "<I"`). -/
def u32_le_from_magic (magic4 : List ℕ) : Except PErr ℕ :=
  if magic4.length = 4 then
    .ok (magic4.getD 0 0 + 256 * magic4.getD 1 0 +
         65536 * magic4.getD 2 0 + 16777216 * magic4.getD 3 0)
  else .error .invalidMagic

/-- `pack_header`: `struct.pack("<IBBHIII", u32_le_from_magic(magic4),
typ & 0xFF, flags & 0xFF, 0, payload_len, crc32 & 0xFFFFFFFF,
seq & 0xFFFFFFFF)`.  The magic is validated first (Python evaluates the
argument before `struct.pack` runs); `payload_len` is the only field
passed unmasked, so `struct.pack` range-checks it against `[0, 2^32)`. -/
def pack_header (magic4 : List ℕ) (payload_len : ℤ) (seq : ℤ)
    (typ : ℤ := 0) (flags : ℤ := 0) (crc32 : ℤ := 0) :
    Except PErr (List ℕ) := do
  let m ← u32_le_from_magic magic4
  match packIu payload_len with
  | none => .error .structError
  | some lenBytes =>
      .ok (le32 m ++ [packB typ, packB flags] ++ le16 0 ++ lenBytes ++
           le32 ((crc32 % 4294967296).toNat) ++ le32 ((seq % 4294967296).toNat))

/-- The `MsgfSnapshot` dataclass with its field defaults. -/
structure MsgfSnapshot where
  speed_kmh : ℤ := 0
  engine_rpm : ℤ := 0
  odo_m : ℤ := 0
  trip_odo_m : ℤ := 0
  outside_temp_c : ℤ := 0
  inside_temp_c : ℤ := 0
  battery_mv : ℤ := 12000
  curr_time_min : ℤ := 0
  trip_time_min : ℤ := 0
  fuel_left_dl : ℤ := 0
  fuel_total_dl : ℤ := 0
deriving DecidableEq, Repr

/-- `MsgfSnapshot.pack`: `struct.pack("<hhiihhhHHHH", speed, rpm, odo, trip,
out_t, in_t, batt, curr & 0xFFFF, trip_t & 0xFFFF, fuel_l & 0xFFFF,
fuel_t & 0xFFFF)`.  Only the four unsigned fields carry a `& 0xFFFF` mask
in the source; the seven signed fields go to `struct.pack` unmasked. -/
def MsgfSnapshot.pack (s : MsgfSnapshot) : Option (List ℕ) :=
  (packh s.speed_kmh).bind fun a =>
  (packh s.engine_rpm).bind fun b =>
  (packi s.odo_m).bind fun c =>
  (packi s.trip_odo_m).bind fun d =>
  (packh s.outside_temp_c).bind fun e =>
  (packh s.inside_temp_c).bind fun f =>
  (packh s.battery_mv).bind fun g =>
  (packHu (s.curr_time_min % 65536)).bind fun h =>
  (packHu (s.trip_time_min % 65536)).bind fun i =>
  (packHu (s.fuel_left_dl % 65536)).bind fun j =>
  (packHu (s.fuel_total_dl % 65536)).bind fun k =>
  some (a ++ b ++ c ++ d ++ e ++ f ++ g ++ h ++ i ++ j ++ k)

/-- The range conditions `struct.pack` imposes on the seven unmasked signed
fields of `MsgfSnapshot.pack`. -/
def MsgfSnapshot.signedInRange (s : MsgfSnapshot) : Prop :=
  (-32768 ≤ s.speed_kmh ∧ s.speed_kmh < 32768) ∧
  (-32768 ≤ s.engine_rpm ∧ s.engine_rpm < 32768) ∧
  (-2147483648 ≤ s.odo_m ∧ s.odo_m < 2147483648) ∧
  (-2147483648 ≤ s.trip_odo_m ∧ s.trip_odo_m < 2147483648) ∧
  (-32768 ≤ s.outside_temp_c ∧ s.outside_temp_c < 32768) ∧
  (-32768 ≤ s.inside_temp_c ∧ s.inside_temp_c < 32768) ∧
  (-32768 ≤ s.battery_mv ∧ s.battery_mv < 32768)

instance (s : MsgfSnapshot) : Decidable s.signedInRange := by
  unfold MsgfSnapshot.signedInRange
  infer_instance

/-- One scripted behavior of `serial.Serial.write`: success, or an
exception raised after the first `accepted` bytes were taken (a partial
write). -/
inductive WriteBehavior where
  | ok
  | fail (accepted : ℕ)
deriving DecidableEq, Repr

/-- The transport: bytes written so far, plus the script of behaviors the
next `write` calls will exhibit (an empty script means every write
succeeds). -/
structure SerialModel where
  written : List ℕ
  behav : List WriteBehavior
deriving DecidableEq, Repr

/-- `serial.Serial.write`: consumes the next scripted behavior; on `ok`
all bytes are appended and the call returns normally, on `fail n` the
first `n` bytes are appended and the call raises. -/
def SerialModel.write (ser : SerialModel) (bs : List ℕ) : Bool × SerialModel :=
  match ser.behav with
  | [] => (true, { written := ser.written ++ bs, behav := [] })
  | .ok :: rest => (true, { written := ser.written ++ bs, behav := rest })
  | .fail n :: rest => (false, { written := ser.written ++ bs.take n, behav := rest })

/-- `HostSender` state: the owned serial port and the sequence counter. -/
structure HostSender where
  ser : SerialModel
  seq : ℤ
deriving DecidableEq, Repr

/-- `HostSender.__init__`: opens the port and sets `self.seq = 1`. -/
def HostSender.mk_init (ser : SerialModel) : HostSender :=
  { ser := ser, seq := 1 }

/-- `HostSender.send_frame`: packs the header with the current sequence
number, writes the header, writes the payload, then increments `self.seq`.
A raise at any point propagates immediately, so the increment only runs
after both writes return; mutations already performed stay in place. -/
def HostSender.send_frame (st : HostSender) (magic4 : List ℕ)
    (payload : List ℕ) (typ : ℤ := 0) (flags : ℤ := 0) :
    Except PErr Unit × HostSender :=
  match pack_header magic4 (payload.length : ℤ) st.seq typ flags 0 with
  | .error e => (.error e, st)
  | .ok hdr =>
    match st.ser.write hdr with
    | (false, ser1) => (.error .transportWriteError, { st with ser := ser1 })
    | (true, ser1) =>
      match ser1.write payload with
      | (false, ser2) => (.error .transportWriteError, { st with ser := ser2 })
      | (true, ser2) => (.ok (), { ser := ser2, seq := st.seq + 1 })

namespace TrackImageFetcher

/-- The size validation in `TrackImageFetcher.fetch_next`
(`host_pc.py:106-108`), applied to the HTTP response body `resp.content`;
the network exchange itself is an external collaborator, so the response
body is taken as an input here. -/
def fetch_next (resp_content : List ℕ) : Except PErr (List ℕ) :=
  if resp_content.length > MAX_PNG_SIZE then .error .payloadTooLarge
  else .ok resp_content

end TrackImageFetcher

/-- Payload built by `HostSender.send_msgf`:
`struct.pack("<B", cmd & 0xFF) + snap.pack()`. -/
def send_msgf_payload (cmd : ℤ) (snap : MsgfSnapshot) : Option (List ℕ) :=
  (snap.pack).map (fun b => packB cmd :: b)

/-- Payload built by `HostSender.send_msgf_cmd_only`:
`struct.pack("<B", cmd & 0xFF)`. -/
def send_msgf_cmd_only_payload (cmd : ℤ) : List ℕ := [packB cmd]

/-! ### Time-of-day helper (`hhmm_to_minutes`), over `List Char` -/

/-- Python whitespace recognized by `str.strip()` and `int()` (ASCII
subset). -/
def isPySpace (c : Char) : Bool :=
  c == ' ' || c == '\t' || c == '\n' || c == '\r' || c == '\x0b' || c == '\x0c'

/-- Python `str.strip()`: remove leading and trailing whitespace. -/
def pyStrip (s : List Char) : List Char :=
  ((s.dropWhile isPySpace).reverse.dropWhile isPySpace).reverse

/-- Python `str.split(sep)` for a one-character separator. -/
def pySplit (sep : Char) : List Char → List (List Char)
  | [] => [[]]
  | c :: rest =>
    if c = sep then [] :: pySplit sep rest
    else
      match pySplit sep rest with
      | [] => [[c]]
      | p :: ps => (c :: p) :: ps

def isPyDigit (c : Char) : Bool := '0' ≤ c && c ≤ '9'

def digitVal (c : Char) : ℕ := c.toNat - 48

/-- Digit-run parsing for Python `int()`: one or more decimal digits, a
single underscore permitted between two digits. -/
def parseDigitsAux : ℕ → List Char → Option ℕ
  | acc, [] => some acc
  | acc, '_' :: c :: rest =>
      if isPyDigit c then parseDigitsAux (acc * 10 + digitVal c) rest else none
  | _, ['_'] => none
  | acc, c :: rest =>
      if isPyDigit c then parseDigitsAux (acc * 10 + digitVal c) rest else none

def parseDigits : List Char → Option ℕ
  | [] => none
  | c :: rest => if isPyDigit c then parseDigitsAux (digitVal c) rest else none

/-- Python `int(string)` in base 10: optional surrounding whitespace, an
optional sign, then a digit run; anything else raises `ValueError`. -/
def pyInt (s : List Char) : Option ℤ :=
  match pyStrip s with
  | '+' :: rest => (parseDigits rest).map (fun n => (n : ℤ))
  | '-' :: rest => (parseDigits rest).map (fun n => -(n : ℤ))
  | rest => (parseDigits rest).map (fun n => (n : ℤ))

/-- `hhmm_to_minutes`: strip, split on `':'`, require exactly two parts
(the tuple unpacking `hh, mm = hhmm.split(":")`), parse both with `int`,
then check `0 <= h <= 23 and 0 <= m <= 59`. -/
def hhmm_to_minutes (s : List Char) : Except PErr ℤ :=
  match pySplit ':' (pyStrip s) with
  | [hh, mm] =>
    match pyInt hh, pyInt mm with
    | some h, some m =>
      if 0 ≤ h ∧ h ≤ 23 ∧ 0 ≤ m ∧ m ≤ 59 then .ok (h * 60 + m)
      else .error .invalidTimeFormat
    | _, _ => .error .invalidTimeFormat
  | _ => .error .invalidTimeFormat

/-- The character of a decimal digit. -/
def digitChar (n : ℕ) : Char := Char.ofNat (48 + n)

/-- A two-digit zero-padded decimal rendering (for stating which strings
are well-formed `HH` / `MM` components). -/
def pad2 (n : ℕ) : List Char :=
  if n < 10 then ['0', digitChar n] else [digitChar (n / 10), digitChar (n % 10)]

/-- The canonical `"HH:MM"` rendering of an hour/minute pair. -/
def renderHHMM (h m : ℕ) : List Char := pad2 h ++ ':' :: pad2 m

/-! ### R565 image container (`png_to_r565_frame`) -/

/-- A decoded RGB image as handed over by PIL (`Image.open(...).convert("RGB")`
and the optional resize are external collaborators): dimensions plus
row-major pixel triples from `img.getdata()`. -/
structure RGBImage where
  w : ℕ
  h : ℕ
  pixels : List (ℕ × ℕ × ℕ)

/-- `v = ((r & 0xF8) << 8) | ((g & 0xFC) << 3) | (b >> 3)`. -/
def r565_word (r g b : ℕ) : ℕ :=
  ((r &&& 0xF8) <<< 8) ||| ((g &&& 0xFC) <<< 3) ||| (b >>> 3)

/-- `struct.pack(">H", v)` (`big = true`) or `struct.pack("<H", v)`
(`big = false`): two bytes, range-checked against `[0, 2^16)`. -/
def pack_u16 (big : Bool) (v : ℕ) : Option (List ℕ) :=
  if v < 65536 then some (if big then be16 v else le16 v) else none

/-- The per-pixel loop of `png_to_r565_frame`: each pixel packed to its
RGB565 word in the requested byte order, accumulated in order. -/
def encodePixels (swap_bytes : Bool) : List (ℕ × ℕ × ℕ) → Option (List ℕ)
  | [] => some []
  | p :: rest =>
    (pack_u16 swap_bytes (r565_word p.1 p.2.1 p.2.2)).bind fun sb =>
    (encodePixels swap_bytes rest).bind fun rb => some (sb ++ rb)

/-- `png_to_r565_frame` after PIL decoding: the packed pixel data prefixed
with the 8-byte sub-header `b"R565" + struct.pack("<HH", w, h)`. -/
def png_to_r565_frame (img : RGBImage) (swap_bytes : Bool) : Option (List ℕ) :=
  (encodePixels swap_bytes img.pixels).bind fun raw =>
  (pack_u16 false img.w).bind fun wb =>
  (pack_u16 false img.h).bind fun hb =>
  some ([82, 53, 54, 53] ++ wb ++ hb ++ raw)

/-! ### Scheduler timing (`run_demo`) -/

/-- End-of-tick sleep in `run_demo`: `sleep_s = period - elapsed;
if sleep_s > 0: time.sleep(sleep_s)` — the duration actually slept. -/
def tick_sleep (period elapsed : ℚ) : ℚ :=
  let sleep_s := period - elapsed
  if sleep_s > 0 then sleep_s else 0

/-- Initial local-PNG deadline:
`next_png = time.time() + png_every_s if (png_path and png_every_s > 0)
else float("inf")`; `float("inf")` is modelled as `none` (never due), and
a missing or empty `png_path` as `has_png_path = false`. -/
def init_next_png (has_png_path : Bool) (png_every_s now : ℚ) : Option ℚ :=
  if has_png_path = true ∧ 0 < png_every_s then some (now + png_every_s)
  else none

/-- Initial remote-fetch deadline:
`next_fetch = time.time() + track_every_s if fetcher else float("inf")`. -/
def init_next_fetch (has_fetcher : Bool) (track_every_s now : ℚ) : Option ℚ :=
  if has_fetcher = true then some (now + track_every_s) else none

/-- `now >= deadline`, with the infinite deadline (`none`) never due. -/
def deadline_due (now : ℚ) : Option ℚ → Bool
  | none => false
  | some t => t ≤ now

/-- The image-deadline outcome of one `run_demo` loop iteration. -/
structure TickSched where
  png_sent : Bool
  fetch_sent : Bool
  next_png : Option ℚ
  next_fetch : Option ℚ

/-- The two independent image-deadline checks of one `run_demo` iteration:
`if now >= next_png and png_path: ... ; next_png = now + png_every_s` and
`if fetcher and now >= next_fetch: ... ; next_fetch = now + track_every_s`. -/
def demo_tick (has_png_path has_fetcher : Bool)
    (png_every_s track_every_s now : ℚ) (np nf : Option ℚ) : TickSched :=
  let pf := deadline_due now np && has_png_path
  let np' := if pf then some (now + png_every_s) else np
  let ff := has_fetcher && deadline_due now nf
  let nf' := if ff then some (now + track_every_s) else nf
  { png_sent := pf, fetch_sent := ff, next_png := np', next_fetch := nf' }

/-! ### Helper lemmas on the byte builders -/

theorem le16_length (n : ℕ) : (le16 n).length = 2 := rfl

theorem le32_length (n : ℕ) : (le32 n).length = 4 := rfl

theorem be16_length (n : ℕ) : (be16 n).length = 2 := rfl

/-- Re-serializing the little-endian value of four bytes gives the bytes
back, in order. -/
theorem le32_of_magic_bytes (b0 b1 b2 b3 : ℕ)
    (h0 : b0 < 256) (h1 : b1 < 256) (h2 : b2 < 256) (h3 : b3 < 256) :
    le32 (b0 + 256 * b1 + 65536 * b2 + 16777216 * b3) = [b0, b1, b2, b3] := by
  simp only [le32, List.cons.injEq, and_true]
  omega

/-- Successful shape of `pack_header` on a well-formed magic. -/
theorem pack_header_eq (b0 b1 b2 b3 : ℕ) (payload_len seq typ flags crc32 : ℤ)
    (h0 : b0 < 256) (h1 : b1 < 256) (h2 : b2 < 256) (h3 : b3 < 256)
    (hlen : 0 ≤ payload_len ∧ payload_len < 4294967296) :
    pack_header [b0, b1, b2, b3] payload_len seq typ flags crc32 =
      .ok ([b0, b1, b2, b3] ++ [packB typ, packB flags] ++ [0, 0] ++
           le32 payload_len.toNat ++ le32 ((crc32 % 4294967296).toNat) ++
           le32 ((seq % 4294967296).toNat)) := by
  have hm : u32_le_from_magic [b0, b1, b2, b3] =
      .ok (b0 + 256 * b1 + 65536 * b2 + 16777216 * b3) := rfl
  simp only [pack_header, hm, packIu, if_pos hlen, Bind.bind, Except.bind]
  rw [le32_of_magic_bytes b0 b1 b2 b3 h0 h1 h2 h3]
  rfl

/-- `pack_header` on a magic of the wrong length fails with the
`InvalidMagic` error. -/
theorem pack_header_bad_magic (magic4 : List ℕ) (payload_len seq typ flags crc32 : ℤ)
    (h : magic4.length ≠ 4) :
    pack_header magic4 payload_len seq typ flags crc32 = .error .invalidMagic := by
  simp only [pack_header, u32_le_from_magic, if_neg h, Bind.bind, Except.bind]

/-- C4: for every 4-byte magic (bytes < 256), payload length in `[0, 2^32)`,
sequence, type, flags and checksum, `pack_header` returns exactly 20 bytes
laid out little-endian as magic:u32, type:u8, flags:u8, reserved:u16 (zero),
length:u32, checksum:u32, sequence:u32, with the 4 magic input bytes
appearing in order as the first 4 output bytes; for every magic whose
length is not exactly 4 bytes it fails with `InvalidMagic`. -/
theorem pack_header_layout_and_invalid_magic :
    (∀ (magic4 : List ℕ) (payload_len seq typ flags crc32 : ℤ),
      magic4.length = 4 → (∀ b ∈ magic4, b < 256) →
      0 ≤ payload_len → payload_len < 4294967296 →
      ∃ out, pack_header magic4 payload_len seq typ flags crc32 = .ok out ∧
        out.length = 20 ∧
        out = magic4 ++ [packB typ, packB flags] ++ [0, 0] ++
              le32 payload_len.toNat ++ le32 ((crc32 % 4294967296).toNat) ++
              le32 ((seq % 4294967296).toNat) ∧
        out.take 4 = magic4) ∧
    (∀ (magic4 : List ℕ) (payload_len seq typ flags crc32 : ℤ),
      magic4.length ≠ 4 →
      pack_header magic4 payload_len seq typ flags crc32 = .error .invalidMagic) := by
  refine ⟨?_, fun m l s t f c h => pack_header_bad_magic m l s t f c h⟩
  intro magic4 payload_len seq typ flags crc32 hlen hbytes hlo hhi
  match magic4, hlen with
  | [b0, b1, b2, b3], _ =>
    have h0 : b0 < 256 := hbytes b0 (by simp)
    have h1 : b1 < 256 := hbytes b1 (by simp)
    have h2 : b2 < 256 := hbytes b2 (by simp)
    have h3 : b3 < 256 := hbytes b3 (by simp)
    refine ⟨_, pack_header_eq b0 b1 b2 b3 payload_len seq typ flags crc32
      h0 h1 h2 h3 ⟨hlo, hhi⟩, ?_, rfl, rfl⟩
    simp [le32, le16]

/-- Witness for C4 at the concrete magic `MSGF`, payload length 26,
sequence 1, and at the 1-byte magic `[77]`. -/
theorem pack_header_layout_and_invalid_magic_witness :
    (∃ out, pack_header MAGIC_MSGF 26 1 0 0 0 = .ok out ∧
      out.length = 20 ∧ out.take 4 = MAGIC_MSGF) ∧
    pack_header [77] 0 0 0 0 0 = .error .invalidMagic := by
  obtain ⟨out, hok, hlen, _, htake⟩ :=
    pack_header_layout_and_invalid_magic.1 MAGIC_MSGF 26 1 0 0 0
      (by decide) (by decide) (by decide) (by decide)
  exact ⟨⟨out, hok, hlen, htake⟩,
    pack_header_layout_and_invalid_magic.2 [77] 0 0 0 0 0 (by decide)⟩

/-- C10: `pack_header` masks type and flags mod 2^8 and checksum and
sequence mod 2^32 (so arbitrarily large or negative values of those four
arguments never make header encoding fail), but passes `payload_len`
unmasked: outside `[0, 2^32)` it raises a `struct.error` instead of
wrapping. -/
theorem pack_header_mask_fields_but_not_len :
    (∀ (typ flags crc32 seq payload_len : ℤ),
      0 ≤ payload_len → payload_len < 4294967296 →
      (pack_header MAGIC_MSGF payload_len seq typ flags crc32).isOk = true) ∧
    (∀ (typ flags crc32 seq payload_len : ℤ),
      pack_header MAGIC_MSGF payload_len seq typ flags crc32 =
        pack_header MAGIC_MSGF payload_len (seq % 4294967296) (typ % 256)
          (flags % 256) (crc32 % 4294967296)) ∧
    (∀ (payload_len seq typ flags crc32 : ℤ),
      payload_len < 0 ∨ 4294967296 ≤ payload_len →
      pack_header MAGIC_MSGF payload_len seq typ flags crc32 =
        .error .structError) := by
  have hB : ∀ x : ℤ, x % 256 % 256 = x % 256 :=
    fun x => Int.emod_emod_of_dvd x dvd_rfl
  have hI : ∀ x : ℤ, x % 4294967296 % 4294967296 = x % 4294967296 :=
    fun x => Int.emod_emod_of_dvd x dvd_rfl
  refine ⟨?_, ?_, ?_⟩
  · intro typ flags crc32 seq payload_len hlo hhi
    rw [show MAGIC_MSGF = [77, 83, 71, 70] from rfl,
      pack_header_eq 77 83 71 70 payload_len seq typ flags crc32
        (by norm_num) (by norm_num) (by norm_num) (by norm_num) ⟨hlo, hhi⟩]
    rfl
  · intro typ flags crc32 seq payload_len
    simp only [pack_header, packB, hB, hI]
  · intro payload_len seq typ flags crc32 h
    have hnone : packIu payload_len = none := by
      simp only [packIu, ite_eq_right_iff]
      intro hc
      omega
    obtain ⟨v, hv⟩ : ∃ v, u32_le_from_magic MAGIC_MSGF = .ok v := ⟨_, rfl⟩
    simp only [pack_header, Bind.bind, Except.bind, hv, hnone]

/-- Witness for C10 at typ = -1, flags = 300, crc = -5, seq = 2^32 + 7 with
payload length 10, and at payload lengths -1 and 2^32. -/
theorem pack_header_mask_fields_but_not_len_witness :
    (pack_header MAGIC_MSGF 10 4294967303 (-1) 300 (-5)).isOk = true ∧
    pack_header MAGIC_MSGF (-1) 0 0 0 0 = .error .structError ∧
    pack_header MAGIC_MSGF 4294967296 0 0 0 0 = .error .structError := by
  exact ⟨pack_header_mask_fields_but_not_len.1 (-1) 300 (-5) 4294967303 10
      (by decide) (by decide),
    pack_header_mask_fields_but_not_len.2.2 (-1) 0 0 0 0 (by left; decide),
    pack_header_mask_fields_but_not_len.2.2 4294967296 0 0 0 0
      (by right; decide)⟩

theorem packh_eq_some {x : ℤ} {y : List ℕ} (h : packh x = some y) :
    -32768 ≤ x ∧ x < 32768 := by
  by_contra hc
  rw [packh, if_neg hc] at h
  exact Option.noConfusion h

theorem packi_eq_some {x : ℤ} {y : List ℕ} (h : packi x = some y) :
    -2147483648 ≤ x ∧ x < 2147483648 := by
  by_contra hc
  rw [packi, if_neg hc] at h
  exact Option.noConfusion h

theorem packh_of_range {x : ℤ} (h : -32768 ≤ x ∧ x < 32768) :
    packh x = some (le16 ((x % 65536).toNat)) := by
  rw [packh, if_pos h]

theorem packi_of_range {x : ℤ} (h : -2147483648 ≤ x ∧ x < 2147483648) :
    packi x = some (le32 ((x % 4294967296).toNat)) := by
  rw [packi, if_pos h]

theorem packHu_emod (x : ℤ) :
    packHu (x % 65536) = some (le16 ((x % 65536).toNat)) := by
  rw [packHu, if_pos ⟨Int.emod_nonneg x (by norm_num), Int.emod_lt_of_pos x (by norm_num)⟩]

/-- Closed form of `MsgfSnapshot.pack` when the seven signed fields are in
range: the eleven fields in order, signed ones two's-complement, unsigned
ones masked mod 2^16. -/
theorem pack_eq_of_signedInRange (s : MsgfSnapshot) (h : s.signedInRange) :
    s.pack = some (le16 ((s.speed_kmh % 65536).toNat) ++
      le16 ((s.engine_rpm % 65536).toNat) ++
      le32 ((s.odo_m % 4294967296).toNat) ++
      le32 ((s.trip_odo_m % 4294967296).toNat) ++
      le16 ((s.outside_temp_c % 65536).toNat) ++
      le16 ((s.inside_temp_c % 65536).toNat) ++
      le16 ((s.battery_mv % 65536).toNat) ++
      le16 ((s.curr_time_min % 65536).toNat) ++
      le16 ((s.trip_time_min % 65536).toNat) ++
      le16 ((s.fuel_left_dl % 65536).toNat) ++
      le16 ((s.fuel_total_dl % 65536).toNat)) := by
  obtain ⟨h1, h2, h3, h4, h5, h6, h7⟩ := h
  simp only [MsgfSnapshot.pack, packh_of_range h1, packh_of_range h2,
    packi_of_range h3, packi_of_range h4, packh_of_range h5,
    packh_of_range h6, packh_of_range h7, packHu_emod, Option.some_bind]

theorem pack_isSome_iff (s : MsgfSnapshot) :
    s.pack.isSome ↔ s.signedInRange := by
  constructor
  · intro h
    rw [Option.isSome_iff_exists] at h
    obtain ⟨b, hb⟩ := h
    simp only [MsgfSnapshot.pack, Option.bind_eq_some] at hb
    obtain ⟨a1, ha1, a2, ha2, a3, ha3, a4, ha4, a5, ha5, a6, ha6, a7, ha7, -⟩ := hb
    exact ⟨packh_eq_some ha1, packh_eq_some ha2, packi_eq_some ha3,
      packi_eq_some ha4, packh_eq_some ha5, packh_eq_some ha6,
      packh_eq_some ha7⟩
  · intro h
    rw [pack_eq_of_signedInRange s h]
    rfl

/-- C2 counterexample: encoding `curr_time_min = 1440` does not yield the
same bytes as `curr_time_min = 0` (1440 mod 65536 = 1440, not 0), and a
signed field is not masked: `speed_kmh = 40000` makes encoding fail. -/
theorem snapshot_mask_counterexample :
    ({ curr_time_min := 1440 : MsgfSnapshot }).pack ≠
      ({ curr_time_min := 0 : MsgfSnapshot }).pack ∧
    ({ speed_kmh := 40000 : MsgfSnapshot }).pack = none := by
  constructor
  · decide
  · decide

/-- C2 amended: only the four unsigned 16-bit fields are masked (mod 2^16)
before encoding; the seven signed fields are passed unmasked and encoding
fails exactly when one of them is outside its two's-complement range.
`curr_time_min = 1440` encodes as the little-endian bytes of 1440
(`[160, 5]` at offset 18), and `speed_kmh = -1` encodes as the 16-bit
two's-complement pattern `[255, 255]`. -/
theorem snapshot_pack_masks_unsigned_only :
    (∀ s : MsgfSnapshot, s.pack.isSome ↔ s.signedInRange) ∧
    (∀ (s : MsgfSnapshot) (t u v w : ℤ),
      ({ s with
         curr_time_min := t
         trip_time_min := u
         fuel_left_dl := v
         fuel_total_dl := w } : MsgfSnapshot).pack =
      ({ s with
         curr_time_min := t % 65536
         trip_time_min := u % 65536
         fuel_left_dl := v % 65536
         fuel_total_dl := w % 65536 } : MsgfSnapshot).pack) ∧
    (({ speed_kmh := -1 : MsgfSnapshot }).pack.map (fun l => l.take 2) =
      some [255, 255]) ∧
    (({ curr_time_min := 1440 : MsgfSnapshot }).pack.map
        (fun l => (l.drop 18).take 2) = some [160, 5]) := by
  have hM : ∀ x : ℤ, x % 65536 % 65536 = x % 65536 :=
    fun x => Int.emod_emod_of_dvd x dvd_rfl
  refine ⟨pack_isSome_iff, ?_, by decide, by decide⟩
  intro s t u v w
  simp only [MsgfSnapshot.pack, hM]

/-- Witness for C2 at concrete records: the default record encodes
(its signed fields are in range), and a record with an out-of-range
signed field does not. -/
theorem snapshot_pack_masks_unsigned_only_witness :
    ({ } : MsgfSnapshot).pack.isSome = true ∧
    ¬ ({ speed_kmh := 40000 : MsgfSnapshot }).pack.isSome = true := by
  constructor
  · exact (snapshot_pack_masks_unsigned_only.1 { }).mpr (by decide)
  · intro h
    have := (snapshot_pack_masks_unsigned_only.1
      { speed_kmh := 40000 : MsgfSnapshot }).mp h
    revert this
    decide

/-- C3 counterexample: the encoded snapshot payload of the default record
(command byte 0x00 plus the 11 fields) is 27 bytes, not 25 — the 11 field
widths 2,2,4,4,2,2,2,2,2,2,2 sum to 26, not 24. -/
theorem msgf_payload_size_counterexample :
    (send_msgf_payload MSG_CMD_SNAPSHOT { }).map List.length ≠ some 25 ∧
    (send_msgf_payload MSG_CMD_SNAPSHOT { }).map List.length = some 27 := by
  constructor
  · decide
  · decide

/-- C3 amended: for every telemetry record whose signed fields are in
range, the snapshot payload (command byte followed by the 11 fixed-order
little-endian fields) is exactly 27 bytes (1 + 26), and the reboot payload
(command byte alone) is exactly 1 byte. -/
theorem msgf_payload_sizes :
    (∀ s : MsgfSnapshot, s.signedInRange → ∀ cmd : ℤ,
      ∃ p, send_msgf_payload cmd s = some p ∧ p.length = 27) ∧
    (∀ cmd : ℤ, (send_msgf_cmd_only_payload cmd).length = 1) := by
  refine ⟨?_, fun _ => rfl⟩
  intro s h cmd
  rw [send_msgf_payload, pack_eq_of_signedInRange s h]
  refine ⟨_, rfl, ?_⟩
  simp [le16, le32]

/-- Witness for C3 at the default record and the reboot command. -/
theorem msgf_payload_sizes_witness :
    (∃ p, send_msgf_payload 0 { } = some p ∧ p.length = 27) ∧
    (send_msgf_cmd_only_payload MSG_CMD_REBOOT).length = 1 :=
  ⟨msgf_payload_sizes.1 { } (by decide) 0, msgf_payload_sizes.2 MSG_CMD_REBOOT⟩

/-- `send_frame` on a clean transport (no scripted failures) with a
well-formed magic and a payload of fewer than 2^32 bytes: both writes
succeed, header then payload are appended, and the counter increments. -/
theorem send_frame_ok (st : HostSender) (b0 b1 b2 b3 : ℕ) (payload : List ℕ)
    (typ flags : ℤ)
    (h0 : b0 < 256) (h1 : b1 < 256) (h2 : b2 < 256) (h3 : b3 < 256)
    (hbe : st.ser.behav = []) (hlen : (payload.length : ℤ) < 4294967296) :
    st.send_frame [b0, b1, b2, b3] payload typ flags =
      (.ok (),
       { ser :=
           { written := st.ser.written ++
               ([b0, b1, b2, b3] ++ [packB typ, packB flags] ++ [0, 0] ++
                le32 payload.length ++ le32 0 ++
                le32 ((st.seq % 4294967296).toNat)) ++ payload
             behav := [] }
         seq := st.seq + 1 }) := by
  have hph := pack_header_eq b0 b1 b2 b3 (payload.length : ℤ) st.seq typ flags 0
    h0 h1 h2 h3 ⟨Int.natCast_nonneg _, hlen⟩
  rw [Int.toNat_natCast] at hph
  obtain ⟨⟨w, be⟩, sq⟩ := st
  obtain rfl : be = [] := hbe
  rw [HostSender.send_frame]
  rw [hph]
  rw [show ((0:ℤ) % 4294967296).toNat = 0 from rfl]
  simp only [SerialModel.write, List.append_assoc]

/-- C1 counterexample: a payload of 200*1024 + 1 bytes passed to
`send_frame` is not rejected — the full frame is written (20 header bytes
plus 204801 payload bytes) and the sequence counter advances from 1 to 2. -/
theorem send_frame_oversized_counterexample :
    ((HostSender.mk_init ⟨[], []⟩).send_frame MAGIC_IMGF
      (List.replicate (200 * 1024 + 1) 0)).1 = .ok () ∧
    ((HostSender.mk_init ⟨[], []⟩).send_frame MAGIC_IMGF
      (List.replicate (200 * 1024 + 1) 0)).2.seq = 2 ∧
    ((HostSender.mk_init ⟨[], []⟩).send_frame MAGIC_IMGF
      (List.replicate (200 * 1024 + 1) 0)).2.ser.written.length =
      20 + (200 * 1024 + 1) := by
  have h := send_frame_ok (HostSender.mk_init ⟨[], []⟩) 73 77 71 70
    (List.replicate (200 * 1024 + 1) 0) 0 0
    (by norm_num) (by norm_num) (by norm_num) (by norm_num) rfl
    (by rw [List.length_replicate]; norm_num)
  rw [show MAGIC_IMGF = [73, 77, 71, 70] from rfl, h]
  refine ⟨rfl, rfl, ?_⟩
  rw [HostSender.mk_init]
  simp only [List.nil_append, List.length_append, List.length_replicate, le32,
    List.length_cons, List.length_nil]

/-- C1 amended: `send_frame` performs no payload-size validation — any
payload of fewer than 2^32 bytes is written in full and the counter
advances, 200 KB limit or not.  The 200 KB maximum is enforced only in
`TrackImageFetcher.fetch_next`, which rejects a fetched PNG of more than
200*1024 bytes (`PayloadTooLarge`) before it reaches the sender, and
passes smaller ones through unchanged. -/
theorem max_png_size_enforced_in_fetch_only :
    (∀ png : List ℕ, png.length > 200 * 1024 →
      TrackImageFetcher.fetch_next png = .error .payloadTooLarge) ∧
    (∀ png : List ℕ, png.length ≤ 200 * 1024 →
      TrackImageFetcher.fetch_next png = .ok png) ∧
    (∀ (st : HostSender) (payload : List ℕ),
      st.ser.behav = [] → (payload.length : ℤ) < 4294967296 →
      ∃ hdr : List ℕ,
        st.send_frame MAGIC_IMGF payload =
          (.ok (),
           { ser :=
               { written := st.ser.written ++ hdr ++ payload
                 behav := [] }
             seq := st.seq + 1 })) := by
  refine ⟨?_, ?_, ?_⟩
  · intro png h
    rw [TrackImageFetcher.fetch_next, if_pos]
    exact h
  · intro png h
    rw [TrackImageFetcher.fetch_next, if_neg]
    show ¬ png.length > 200 * 1024
    omega
  · intro st payload hbe hlen
    exact ⟨_, send_frame_ok st 73 77 71 70 payload 0 0
      (by norm_num) (by norm_num) (by norm_num) (by norm_num) hbe hlen⟩

/-- Witness for C1 (amended) at concrete inputs: an oversized response of
204801 zero bytes is rejected, a 1-byte response passes through, and a
1-byte payload is sent on a fresh clean sender. -/
theorem max_png_size_enforced_in_fetch_only_witness :
    TrackImageFetcher.fetch_next (List.replicate (200 * 1024 + 1) 0) =
      .error .payloadTooLarge ∧
    TrackImageFetcher.fetch_next [7] = .ok [7] ∧
    ∃ hdr : List ℕ,
      (HostSender.mk_init ⟨[], []⟩).send_frame MAGIC_IMGF [7] =
        (.ok (),
         { ser := { written := [] ++ hdr ++ [7], behav := [] }
           seq := 1 + 1 }) := by
  refine ⟨max_png_size_enforced_in_fetch_only.1 _
      (by rw [List.length_replicate]; norm_num),
    max_png_size_enforced_in_fetch_only.2.1 [7] (by norm_num), ?_⟩
  exact max_png_size_enforced_in_fetch_only.2.2
    (HostSender.mk_init ⟨[], []⟩) [7] rfl (by norm_num)

/-- The sequence field of an encoded header is its final 4 bytes: dropping
the 16 bytes of magic, type, flags, reserved, length and checksum leaves
the sequence word. -/
theorem drop16_of_header (m tf rsv lenB crcB seqB : List ℕ)
    (hm : m.length = 4) (htf : tf.length = 2) (hr : rsv.length = 2)
    (hl : lenB.length = 4) (hc : crcB.length = 4) :
    (m ++ tf ++ rsv ++ lenB ++ crcB ++ seqB).drop 16 = seqB := by
  apply List.drop_left'
  simp [List.length_append, hm, htf, hr, hl, hc]

/-- C5: the transmitter's sequence counter starts at 1 at construction and
increases by exactly 1 per sent frame; the encoded header field carries the
counter reduced mod 2^32; and on a fresh transmitter three consecutive
sends (telemetry, image, telemetry) succeed and write three frames whose
header sequence fields are the little-endian words 1, 2 and 3. -/
theorem seq_starts_one_and_increments :
    (∀ ser : SerialModel, (HostSender.mk_init ser).seq = 1) ∧
    (∀ (seq : ℤ) (out : List ℕ),
      pack_header MAGIC_MSGF 0 seq = .ok out →
      out.drop 16 = le32 ((seq % 4294967296).toNat)) ∧
    (∀ p1 p2 p3 : List ℕ,
      (p1.length : ℤ) < 4294967296 → (p2.length : ℤ) < 4294967296 →
      (p3.length : ℤ) < 4294967296 →
      ((HostSender.mk_init ⟨[], []⟩).send_frame MAGIC_MSGF p1).1 = .ok () ∧
      (((HostSender.mk_init ⟨[], []⟩).send_frame MAGIC_MSGF
        p1).2.send_frame MAGIC_IMGF p2).1 = .ok () ∧
      ((((HostSender.mk_init ⟨[], []⟩).send_frame MAGIC_MSGF
        p1).2.send_frame MAGIC_IMGF p2).2.send_frame MAGIC_MSGF p3).1 =
        .ok () ∧
      ((HostSender.mk_init ⟨[], []⟩).send_frame MAGIC_MSGF p1).2.seq = 2 ∧
      (((HostSender.mk_init ⟨[], []⟩).send_frame MAGIC_MSGF
        p1).2.send_frame MAGIC_IMGF p2).2.seq = 3 ∧
      ((((HostSender.mk_init ⟨[], []⟩).send_frame MAGIC_MSGF
        p1).2.send_frame MAGIC_IMGF p2).2.send_frame MAGIC_MSGF p3).2.seq =
        4 ∧
      ∃ h1 h2 h3 : List ℕ,
        pack_header MAGIC_MSGF (p1.length : ℤ) 1 = .ok h1 ∧
        pack_header MAGIC_IMGF (p2.length : ℤ) 2 = .ok h2 ∧
        pack_header MAGIC_MSGF (p3.length : ℤ) 3 = .ok h3 ∧
        ((((HostSender.mk_init ⟨[], []⟩).send_frame MAGIC_MSGF
          p1).2.send_frame MAGIC_IMGF p2).2.send_frame MAGIC_MSGF
          p3).2.ser.written = h1 ++ p1 ++ h2 ++ p2 ++ h3 ++ p3 ∧
        h1.drop 16 = le32 1 ∧ h2.drop 16 = le32 2 ∧ h3.drop 16 = le32 3) := by
  have hM : MAGIC_MSGF = [77, 83, 71, 70] := rfl
  have hI : MAGIC_IMGF = [73, 77, 71, 70] := rfl
  refine ⟨fun _ => rfl, ?_, ?_⟩
  · intro seq out h
    rw [hM, pack_header_eq 77 83 71 70 0 seq 0 0 0 (by norm_num) (by norm_num)
      (by norm_num) (by norm_num) ⟨le_refl 0, by norm_num⟩] at h
    injection h with h
    subst h
    exact drop16_of_header _ _ _ _ _ _ rfl rfl rfl (le32_length _) (le32_length _)
  · intro p1 p2 p3 hl1 hl2 hl3
    rw [hM, hI]
    have e1 := send_frame_ok (HostSender.mk_init ⟨[], []⟩) 77 83 71 70 p1 0 0
      (by norm_num) (by norm_num) (by norm_num) (by norm_num) rfl hl1
    have e2 := send_frame_ok
      ((HostSender.mk_init ⟨[], []⟩).send_frame [77, 83, 71, 70] p1).2
      73 77 71 70 p2 0 0
      (by norm_num) (by norm_num) (by norm_num) (by norm_num) (by rw [e1]) hl2
    have e3 := send_frame_ok
      (((HostSender.mk_init ⟨[], []⟩).send_frame [77, 83, 71, 70]
        p1).2.send_frame [73, 77, 71, 70] p2).2
      77 83 71 70 p3 0 0
      (by norm_num) (by norm_num) (by norm_num) (by norm_num) (by rw [e2]) hl3
    simp only [HostSender.mk_init] at e1 e2 e3 ⊢
    norm_num at e1
    simp only [e1] at e2
    norm_num at e2
    simp only [show Int.toNat 2 = 2 from rfl] at e2
    simp only [e1] at e3
    simp only [e2] at e3
    norm_num at e3
    simp only [show Int.toNat 3 = 3 from rfl] at e3
    have q1 := pack_header_eq 77 83 71 70 (p1.length : ℤ) 1 0 0 0 (by norm_num)
      (by norm_num) (by norm_num) (by norm_num) ⟨Int.natCast_nonneg _, hl1⟩
    have q2 := pack_header_eq 73 77 71 70 (p2.length : ℤ) 2 0 0 0 (by norm_num)
      (by norm_num) (by norm_num) (by norm_num) ⟨Int.natCast_nonneg _, hl2⟩
    have q3 := pack_header_eq 77 83 71 70 (p3.length : ℤ) 3 0 0 0 (by norm_num)
      (by norm_num) (by norm_num) (by norm_num) ⟨Int.natCast_nonneg _, hl3⟩
    rw [Int.toNat_natCast,
      show (((0:ℤ)) % 4294967296).toNat = 0 from rfl,
      show (((1:ℤ)) % 4294967296).toNat = 1 from rfl] at q1
    rw [Int.toNat_natCast,
      show (((0:ℤ)) % 4294967296).toNat = 0 from rfl,
      show (((2:ℤ)) % 4294967296).toNat = 2 from rfl] at q2
    rw [Int.toNat_natCast,
      show (((0:ℤ)) % 4294967296).toNat = 0 from rfl,
      show (((3:ℤ)) % 4294967296).toNat = 3 from rfl] at q3
    refine ⟨by simp only [e1], by simp only [e1, e2],
      by simp only [e1, e2, e3],
      ?_, ?_, ?_, _, _, _, q1, q2, q3, ?_, ?_, ?_, ?_⟩
    · simp only [e1]
    · simp only [e1, e2]
    · simp only [e1, e2, e3]
    · simp only [e1, e2, e3, List.append_assoc, List.cons_append,
        List.nil_append]
    · exact drop16_of_header _ _ _ _ _ _ rfl rfl rfl (le32_length _) (le32_length _)
    · exact drop16_of_header _ _ _ _ _ _ rfl rfl rfl (le32_length _) (le32_length _)
    · exact drop16_of_header _ _ _ _ _ _ rfl rfl rfl (le32_length _) (le32_length _)

/-- Witness for C5 at three empty payloads on a fresh transmitter. -/
theorem seq_starts_one_and_increments_witness :
    (HostSender.mk_init ⟨[], []⟩).seq = 1 ∧
    ((((HostSender.mk_init ⟨[], []⟩).send_frame MAGIC_MSGF
      []).2.send_frame MAGIC_IMGF []).2.send_frame MAGIC_MSGF []).2.seq =
      4 := by
  obtain ⟨-, -, -, -, -, h6, -⟩ :=
    seq_starts_one_and_increments.2.2 [] [] []
      (by norm_num) (by norm_num) (by norm_num)
  exact ⟨seq_starts_one_and_increments.1 ⟨[], []⟩, h6⟩

/-- C6 counterexample: when the very first transport write fails, the send
raises `TransportWriteError` and the sequence counter stays at 1 — it does
not increment. -/
theorem seq_not_incremented_on_failure_counterexample :
    ((HostSender.mk_init ⟨[], [.fail 0]⟩).send_frame MAGIC_MSGF [5]).1 =
      .error .transportWriteError ∧
    ((HostSender.mk_init ⟨[], [.fail 0]⟩).send_frame MAGIC_MSGF [5]).2.seq
      = 1 := by
  constructor
  · decide
  · decide

/-- C6 amended: the increment runs only after both writes return, so a
send that fails (for any reason, including a transport write failure after
a partial write) leaves the sequence counter exactly unchanged — it is
neither incremented nor rolled back.  A successful send increments it by
exactly 1. -/
theorem seq_unchanged_on_failed_send (st : HostSender)
    (magic4 payload : List ℕ) (typ flags : ℤ) :
    (st.send_frame magic4 payload typ flags).2.seq =
      (if (st.send_frame magic4 payload typ flags).1.isOk
       then st.seq + 1 else st.seq) := by
  unfold HostSender.send_frame
  rcases pack_header magic4 (payload.length : ℤ) st.seq typ flags 0 with e | hdr
  · simp [Except.isOk, Except.toBool]
  · rcases hw : st.ser.write hdr with ⟨ok1, ser1⟩
    cases ok1
    · simp [hw, Except.isOk, Except.toBool]
    · rcases hw2 : ser1.write payload with ⟨ok2, ser2⟩
      cases ok2 <;> simp [hw, hw2, Except.isOk, Except.toBool]

/-! ### Lemmas for the time-of-day helper -/

theorem dropWhile_eq_self_of_all {p : Char → Bool} :
    ∀ l : List Char, (∀ c ∈ l, p c = false) → l.dropWhile p = l
  | [], _ => rfl
  | c :: t, h => by
    rw [List.dropWhile_cons, h c (List.mem_cons_self c t)]
    simp

theorem pyStrip_eq_self {l : List Char} (h : ∀ c ∈ l, isPySpace c = false) :
    pyStrip l = l := by
  rw [pyStrip, dropWhile_eq_self_of_all l h,
    dropWhile_eq_self_of_all l.reverse (fun c hc => h c (List.mem_reverse.mp hc)),
    List.reverse_reverse]

theorem pyStrip_subset {l : List Char} {c : Char} (hc : c ∈ pyStrip l) :
    c ∈ l := by
  rw [pyStrip, List.mem_reverse] at hc
  have h2 := List.dropWhile_subset (p := isPySpace)
    (l := (l.dropWhile isPySpace).reverse) hc
  rw [List.mem_reverse] at h2
  exact List.dropWhile_subset isPySpace h2

theorem pySplit_no_sep {sep : Char} :
    ∀ l : List Char, (∀ c ∈ l, c ≠ sep) → pySplit sep l = [l] := by
  intro l
  induction l with
  | nil => intro _; rfl
  | cons c t ih =>
    intro h
    rw [pySplit, if_neg (h c (List.mem_cons_self c t)),
      ih (fun x hx => h x (List.mem_cons_of_mem c hx))]

theorem pySplit_append {sep : Char} (a b : List Char)
    (h : ∀ c ∈ a, c ≠ sep) :
    pySplit sep (a ++ sep :: b) = a :: pySplit sep b := by
  induction a with
  | nil => simp [pySplit]
  | cons c t ih =>
    rw [List.cons_append, pySplit, if_neg (h c (List.mem_cons_self c t)),
      ih (fun x hx => h x (List.mem_cons_of_mem c hx))]

theorem digit_facts : ∀ d : ℕ, d ≤ 9 →
    isPySpace (digitChar d) = false ∧ digitChar d ≠ ':' ∧
    isPyDigit (digitChar d) = true ∧ digitVal (digitChar d) = d := by
  decide

theorem pad2_mem {n : ℕ} (hn : n ≤ 99) :
    ∀ c ∈ pad2 n, ∃ d, d ≤ 9 ∧ c = digitChar d := by
  intro c hc
  rw [pad2] at hc
  split_ifs at hc with h
  · rcases List.mem_cons.mp hc with rfl | hc
    · exact ⟨0, by norm_num, rfl⟩
    · rcases List.mem_singleton.mp hc with rfl
      exact ⟨n, by omega, rfl⟩
  · rcases List.mem_cons.mp hc with rfl | hc
    · exact ⟨n / 10, by omega, rfl⟩
    · rcases List.mem_singleton.mp hc with rfl
      exact ⟨n % 10, by omega, rfl⟩

theorem pyInt_pad2 : ∀ n : ℕ, n ≤ 99 → pyInt (pad2 n) = some (n : ℤ) := by
  decide

/-- Evaluation of `hhmm_to_minutes` on a canonical two-digit rendering. -/
theorem hhmm_renderHHMM (h m : ℕ) (hh : h ≤ 99) (hm : m ≤ 99) :
    hhmm_to_minutes (renderHHMM h m) =
      if h ≤ 23 ∧ m ≤ 59 then .ok ((h : ℤ) * 60 + m)
      else .error .invalidTimeFormat := by
  have hcolon_h : ∀ c ∈ pad2 h, c ≠ ':' := by
    intro c hc
    obtain ⟨d, hd, rfl⟩ := pad2_mem hh c hc
    exact (digit_facts d hd).2.1
  have hcolon_m : ∀ c ∈ pad2 m, c ≠ ':' := by
    intro c hc
    obtain ⟨d, hd, rfl⟩ := pad2_mem hm c hc
    exact (digit_facts d hd).2.1
  have hnospace : ∀ c ∈ renderHHMM h m, isPySpace c = false := by
    intro c hc
    rw [renderHHMM] at hc
    rcases List.mem_append.mp hc with hc | hc
    · obtain ⟨d, hd, rfl⟩ := pad2_mem hh c hc
      exact (digit_facts d hd).1
    · rcases List.mem_cons.mp hc with rfl | hc
      · decide
      · obtain ⟨d, hd, rfl⟩ := pad2_mem hm c hc
        exact (digit_facts d hd).1
  have esplit : pySplit ':' (pyStrip (renderHHMM h m)) = [pad2 h, pad2 m] := by
    rw [pyStrip_eq_self hnospace, renderHHMM, pySplit_append _ _ hcolon_h,
      pySplit_no_sep _ hcolon_m]
  simp only [hhmm_to_minutes, esplit, pyInt_pad2 h hh, pyInt_pad2 m hm]
  by_cases hcond : h ≤ 23 ∧ m ≤ 59
  · rw [if_pos ⟨Int.natCast_nonneg h, by exact_mod_cast hcond.1,
      Int.natCast_nonneg m, by exact_mod_cast hcond.2⟩, if_pos hcond]
  · rw [if_neg, if_neg hcond]
    intro hc
    exact hcond ⟨by exact_mod_cast hc.2.1, by exact_mod_cast hc.2.2.2⟩

/-- C7: `hhmm_to_minutes` maps every valid two-digit `"HH:MM"` string with
hours 0–23 and minutes 0–59 to `hours*60 + minutes` (so `"23:59"` gives
1439); it fails with `InvalidTimeFormat` on two-digit strings whose hours
or minutes fall outside those ranges (so `"24:00"` and `"12:60"` both
fail), on any string containing no colon (not two colon-separated parts),
and on parts that are not integers (`"ab:cd"`). -/
theorem hhmm_to_minutes_contract :
    (∀ h : ℕ, h ≤ 23 → ∀ m : ℕ, m ≤ 59 →
      hhmm_to_minutes (renderHHMM h m) = .ok ((h : ℤ) * 60 + m)) ∧
    hhmm_to_minutes ("23:59".toList) = .ok 1439 ∧
    hhmm_to_minutes ("24:00".toList) = .error .invalidTimeFormat ∧
    hhmm_to_minutes ("12:60".toList) = .error .invalidTimeFormat ∧
    (∀ h : ℕ, h ≤ 99 → ∀ m : ℕ, m ≤ 99 → 24 ≤ h ∨ 60 ≤ m →
      hhmm_to_minutes (renderHHMM h m) = .error .invalidTimeFormat) ∧
    (∀ s : List Char, (∀ c ∈ s, c ≠ ':') →
      hhmm_to_minutes s = .error .invalidTimeFormat) ∧
    hhmm_to_minutes ("ab:cd".toList) = .error .invalidTimeFormat := by
  refine ⟨?_, by decide, by decide, by decide, ?_, ?_, by decide⟩
  · intro h hh m hm
    rw [hhmm_renderHHMM h m (by omega) (by omega), if_pos ⟨hh, hm⟩]
  · intro h hh m hm hout
    rw [hhmm_renderHHMM h m hh hm, if_neg]
    omega
  · intro s hs
    have e := pySplit_no_sep (pyStrip s)
      (fun c hc => hs c (pyStrip_subset hc))
    simp only [hhmm_to_minutes, e]

/-- Witness for C7 at the concrete renderings of 23:59, 24:00 and at a
colon-free string. -/
theorem hhmm_to_minutes_contract_witness :
    hhmm_to_minutes (renderHHMM 23 59) = .ok 1439 ∧
    hhmm_to_minutes (renderHHMM 24 0) = .error .invalidTimeFormat ∧
    hhmm_to_minutes (['a', 'b']) = .error .invalidTimeFormat := by
  refine ⟨?_, ?_, ?_⟩
  · rw [hhmm_to_minutes_contract.1 23 (by norm_num) 59 (by norm_num)]
    norm_num
  · exact hhmm_to_minutes_contract.2.2.2.2.1 24 (by norm_num) 0 (by norm_num)
      (by norm_num)
  · exact hhmm_to_minutes_contract.2.2.2.2.2.1 ['a', 'b'] (by decide)

/-! ### Lemmas for the R565 container -/

/-- An RGB565 word always fits 16 bits when the blue channel is a byte. -/
theorem r565_word_lt (r g b : ℕ) (hb : b < 256) : r565_word r g b < 65536 := by
  have h1 : (r &&& 0xF8) <<< 8 < 2 ^ 16 := by
    rw [Nat.shiftLeft_eq]
    calc (r &&& 0xF8) * 2 ^ 8 ≤ 0xF8 * 2 ^ 8 :=
          Nat.mul_le_mul_right _ Nat.and_le_right
    _ < 2 ^ 16 := by norm_num
  have h2 : (g &&& 0xFC) <<< 3 < 2 ^ 16 := by
    rw [Nat.shiftLeft_eq]
    calc (g &&& 0xFC) * 2 ^ 3 ≤ 0xFC * 2 ^ 3 :=
          Nat.mul_le_mul_right _ Nat.and_le_right
    _ < 2 ^ 16 := by norm_num
  have h3 : b >>> 3 < 2 ^ 16 := by
    rw [Nat.shiftRight_eq_div_pow]
    omega
  have h := Nat.or_lt_two_pow (Nat.or_lt_two_pow h1 h2) h3
  rw [r565_word]
  omega

/-- Closed form of the pixel loop when every blue channel is a byte. -/
theorem encodePixels_eq (swap : Bool) :
    ∀ pixels : List (ℕ × ℕ × ℕ),
      (∀ p ∈ pixels, p.2.2 < 256) →
      encodePixels swap pixels =
        some (pixels.flatMap (fun p =>
          if swap then be16 (r565_word p.1 p.2.1 p.2.2)
          else le16 (r565_word p.1 p.2.1 p.2.2))) := by
  intro pixels
  induction pixels with
  | nil => intro _; rfl
  | cons p t ih =>
    intro h
    rw [encodePixels, pack_u16,
      if_pos (r565_word_lt p.1 p.2.1 p.2.2 (h p (List.mem_cons_self p t))),
      ih (fun x hx => h x (List.mem_cons_of_mem p hx)), List.flatMap_cons]
    rfl

/-- The length of a `flatMap` whose pieces all have the same length. -/
theorem flatMap_length_const {α : Type} (f : α → List ℕ) (k : ℕ) :
    ∀ l : List α, (∀ a ∈ l, (f a).length = k) →
      (l.flatMap f).length = k * l.length := by
  intro l
  induction l with
  | nil => intro _; simp
  | cons a t ih =>
    intro h
    rw [List.flatMap_cons, List.length_append, h a (List.mem_cons_self a t),
      ih (fun x hx => h x (List.mem_cons_of_mem a hx)), List.length_cons]
    ring

/-- C8: for every decoded RGB image (dimensions below 2^16, byte-valued
channels, `width*height` pixels), the R565 container is the 8-byte
sub-header `R565` + width:u16 + height:u16 (little-endian) followed by one
2-byte RGB565 sample per pixel in the requested byte order, for a total of
`8 + 2*width*height` bytes; a pure-red 1×1 pixel in non-swapped order
yields `R565`, 0x0001, 0x0001, then bytes 0x00 0xF8 (the word 0xF800). -/
theorem r565_container_layout :
    (∀ (img : RGBImage) (swap : Bool),
      img.w < 65536 → img.h < 65536 →
      (∀ p ∈ img.pixels, p.1 < 256 ∧ p.2.1 < 256 ∧ p.2.2 < 256) →
      img.pixels.length = img.w * img.h →
      png_to_r565_frame img swap =
        some ([82, 53, 54, 53] ++ le16 img.w ++ le16 img.h ++
          img.pixels.flatMap (fun p =>
            if swap then be16 (r565_word p.1 p.2.1 p.2.2)
            else le16 (r565_word p.1 p.2.1 p.2.2))) ∧
      (png_to_r565_frame img swap).map List.length =
        some (8 + 2 * (img.w * img.h))) ∧
    png_to_r565_frame ⟨1, 1, [(255, 0, 0)]⟩ false =
      some ([82, 53, 54, 53] ++ [1, 0] ++ [1, 0] ++ [0x00, 0xF8]) := by
  constructor
  · intro img swap hw hh hp hlen
    have hmain : png_to_r565_frame img swap =
        some ([82, 53, 54, 53] ++ le16 img.w ++ le16 img.h ++
          img.pixels.flatMap (fun p =>
            if swap then be16 (r565_word p.1 p.2.1 p.2.2)
            else le16 (r565_word p.1 p.2.1 p.2.2))) := by
      rw [png_to_r565_frame, encodePixels_eq swap img.pixels
          (fun p hp2 => (hp p hp2).2.2),
        pack_u16, if_pos hw, pack_u16, if_pos hh]
      rfl
    refine ⟨hmain, ?_⟩
    rw [hmain]
    have hflat : (img.pixels.flatMap (fun p =>
        if swap then be16 (r565_word p.1 p.2.1 p.2.2)
        else le16 (r565_word p.1 p.2.1 p.2.2))).length = 2 * img.pixels.length :=
      flatMap_length_const _ 2 img.pixels
        (fun p _ => by cases swap <;> rfl)
    simp only [Option.map_some', List.length_append, le16_length, hflat, hlen]
    norm_num
  · decide

/-- Witness for C8 at a concrete 2×1 image (red and blue pixels), both
byte orders implicitly covered by the main conjunct at `swap = true`. -/
theorem r565_container_layout_witness :
    png_to_r565_frame ⟨2, 1, [(255, 0, 0), (0, 0, 255)]⟩ true =
      some ([82, 53, 54, 53] ++ le16 2 ++ le16 1 ++
        ([(255, 0, 0), (0, 0, 255)] : List (ℕ × ℕ × ℕ)).flatMap (fun p =>
          if true then be16 (r565_word p.1 p.2.1 p.2.2)
          else le16 (r565_word p.1 p.2.1 p.2.2))) ∧
    (png_to_r565_frame ⟨2, 1, [(255, 0, 0), (0, 0, 255)]⟩ true).map
      List.length = some (8 + 2 * (2 * 1)) := by
  exact (r565_container_layout.1 ⟨2, 1, [(255, 0, 0), (0, 0, 255)]⟩ true
    (by norm_num) (by norm_num) (by decide) (by decide))

/-- C9: on every scheduler tick the end-of-tick sleep equals
`max(0, period - elapsed)` (never a negative duration; a slow tick
shortens or skips the next sleep), an unconfigured image source (no local
path or a non-positive interval for the local stream; no fetcher for the
remote stream) gets the infinite deadline `none`, which is never due, and
the two image deadline decisions are independent: the local outcome
ignores the fetcher configuration and the remote outcome ignores the local
one, neither involving the telemetry period. -/
theorem scheduler_sleep_and_deadlines :
    (∀ period elapsed : ℚ, tick_sleep period elapsed = max 0 (period - elapsed)) ∧
    (∀ (hp : Bool) (e now : ℚ), (hp = false ∨ e ≤ 0) →
      init_next_png hp e now = none) ∧
    (∀ (e now : ℚ), init_next_fetch false e now = none) ∧
    (∀ now : ℚ, deadline_due now none = false) ∧
    (∀ (hp hf hf' : Bool) (pe te te' now : ℚ) (np nf nf' : Option ℚ),
      (demo_tick hp hf pe te now np nf).png_sent =
        (demo_tick hp hf' pe te' now np nf').png_sent ∧
      (demo_tick hp hf pe te now np nf).next_png =
        (demo_tick hp hf' pe te' now np nf').next_png) ∧
    (∀ (hp hp' hf : Bool) (pe pe' te now : ℚ) (np np' nf : Option ℚ),
      (demo_tick hp hf pe te now np nf).fetch_sent =
        (demo_tick hp' hf pe' te now np' nf).fetch_sent ∧
      (demo_tick hp hf pe te now np nf).next_fetch =
        (demo_tick hp' hf pe' te now np' nf).next_fetch) := by
  refine ⟨?_, ?_, ?_, fun _ => rfl, fun _ _ _ _ _ _ _ _ _ _ => ⟨rfl, rfl⟩,
    fun _ _ _ _ _ _ _ _ _ _ => ⟨rfl, rfl⟩⟩
  · intro period elapsed
    simp only [tick_sleep]
    split_ifs with hcond
    · exact (max_eq_right hcond.le).symm
    · exact (max_eq_left (by linarith)).symm
  · intro hp e now h
    rw [init_next_png, if_neg]
    rintro ⟨h1, h2⟩
    rcases h with rfl | h
    · exact Bool.false_ne_true h1
    · linarith
  · intro e now
    rw [init_next_fetch, if_neg]
    simp

/-- Witness for C9 at concrete disabled configurations: no local path,
a non-positive local interval, and no fetcher. -/
theorem scheduler_sleep_and_deadlines_witness :
    init_next_png false 5 0 = none ∧
    init_next_png true (-1) 0 = none ∧
    init_next_fetch false 25 0 = none := by
  exact ⟨scheduler_sleep_and_deadlines.2.1 false 5 0 (Or.inl rfl),
    scheduler_sleep_and_deadlines.2.1 true (-1) 0 (Or.inr (by norm_num)),
    scheduler_sleep_and_deadlines.2.2.1 25 0⟩

end EspHud
